import Mathlib

/-
Verification development for the MixedMembershipPoissonFactorization
repository (src/hyperparameter.py).

The file shallowly embeds the two classes of the source, `BPF` and `MMPF`:
their variational guides (pyro.param creation order and initial values, the
per-rating iteration), the models' rating-block rate computation, the
argument handling of `BPF.fit`, and the shared SVI training loop.  Python
exceptions are modelled with an explicit error type and `Except`; pyro's
global parameter store is modelled as an association list keyed by the
(format-string base, index list) pairs that the source's
`'name_{},{}'.format(i, j)` keys are in bijection with (every base in the
source ends in `_` and indices are comma-separated decimals, so two
distinct (base, indices) pairs always format to distinct strings).

Scalars are modelled as rationals; none of the verified properties depend
on real-valued sampling, so sampled values are supplied by explicit
oracle functions where the code reads them.
-/

/-- Python exceptions that the embedded code can raise. -/

inductive PyErr where
  | typeError (msg : String)
  | unboundLocal (name : String)
  | valueError (msg : String)
  | stopIteration
  | indexError (msg : String)
  | shapeError (msg : String)
  | runtimeError (msg : String)
deriving DecidableEq

/-- Values held in the pyro parameter store: positive scalars and
positive vectors (the only shapes the source creates). -/

inductive PVal where
  | scalar (x : ℚ)
  | vec (xs : List ℚ)
deriving DecidableEq

/-- Key of a pyro parameter: the constant base of the Python format string
(e.g. `q_li1_`) together with the list of formatted indices.  In the source
every base ends with an underscore (or is a full constant name with no
indices) and the indices are comma-separated decimals, so these pairs are
in bijection with the actual string keys. -/

structure PKey where
  base : String
  ids : List ℕ
deriving DecidableEq

/-- The pyro parameter store: an ordered association list of named
parameters with their current values (here: their initial values, since
every claim is about the first invocation of a guide). -/

abbrev Store := List (PKey × PVal)

/-- One observed rating triple `(user_index, item_index, count)`. -/

abbrev Rating := ℕ × ℕ × ℕ

/-- The hyperparameter dictionary of the source (lines 231-239): Gamma
shape/rate priors, the Dirichlet concentration, and the size constants. -/

structure Hyper where
  a_u : ℚ
  b_u : ℚ
  a_i : ℚ
  b_i : ℚ
  a_c : ℚ
  b_c : ℚ
  c_u : ℚ
  c_i : ℚ
  context_conc : ℚ
  num_users : ℕ
  num_items : ℕ
  num_latents : ℕ
  num_contexts : ℕ
  num_context_latents : ℕ
  num_nonmissing : ℕ
deriving DecidableEq

/-- First-match lookup in the parameter store. -/

def storeLookup : Store → PKey → Option PVal
  | [], _ => none
  | (k', v) :: st, k => if k' = k then some v else storeLookup st k

/-- The `pyro.param(name, init, constraint=...)` call: create-or-fetch
semantics.  If the key is already bound the store is unchanged; otherwise
the parameter is appended with its initial value. -/

def paramAdd (st : Store) (k : PKey) (v : PVal) : Store :=
  match storeLookup st k with
  | some _ => st
  | none => st ++ [(k, v)]

/-- Every parameter of the store whose key has base `b` holds the value
`val` — each base appears at exactly one `pyro.param` call site in a
guide, so this records that call site's single initial value. -/

def baseInv (st : Store) (b : String) (val : PVal) : Prop :=
  ∀ (ids : List ℕ) (v : PVal), storeLookup st ⟨b, ids⟩ = some v → v = val

/-- Inner pyro.plate loop over latent dimensions, as both guides write it:
for `l` in `0..K-1`, create the shape parameter `b1_{i},{l}` initialized to
`v1` and the rate parameter `b2_{i},{l}` initialized to `v2`
(BPF._guide lines 59-65 and 77-83; MMPF._guide lines 158-173, 185-191 and
203-209 are instances of this shape). -/

def latentsLoop (b1 b2 : String) (v1 v2 : ℚ) (i : ℕ) : ℕ → Store → Store
  | 0, st => st
  | l + 1, st =>
      let st1 := latentsLoop b1 b2 v1 v2 i l st
      let st2 := paramAdd st1 ⟨b1, [i, l]⟩ (PVal.scalar v1)
      paramAdd st2 ⟨b2, [i, l]⟩ (PVal.scalar v2)

/-- Outer per-entity pyro.plate loop, as both guides write it: for each
entity `m` in `0..n-1`, create the entity's mean-posterior parameters
`ba_{m}` (init `va`) and `bb_{m}` (init `vb`) and then run the latent
dimension loop (BPF._guide lines 49-83, MMPF._guide lines 175-209). -/

def entityLoop (ba bb : String) (va vb : ℚ) (b1 b2 : String) (v1 v2 : ℚ)
    (K : ℕ) : ℕ → Store → Store
  | 0, st => st
  | n + 1, st =>
      let st1 := entityLoop ba bb va vb b1 b2 v1 v2 K n st
      let st2 := paramAdd st1 ⟨ba, [n]⟩ (PVal.scalar va)
      let st3 := paramAdd st2 ⟨bb, [n]⟩ (PVal.scalar vb)
      latentsLoop b1 b2 v1 v2 n K st3

/-- Per-context loop of MMPF._guide (lines 158-173): for each context `c`
in `0..n-1`, create the `Kc` context-latent posterior parameter pairs. -/

def ctxLoop (b1 b2 : String) (v1 v2 : ℚ) (K : ℕ) : ℕ → Store → Store
  | 0, st => st
  | c + 1, st => latentsLoop b1 b2 v1 v2 c K (ctxLoop b1 b2 v1 v2 K c st)

/-- The SVI training loop shared by `BPF.fit` (lines 96-101) and
`MMPF.fit` (lines 224-229): `losses = []`, then for each of `num_steps`
steps take one `svi.step(...)` and append its scalar loss; an exception in
a step propagates out of `fit` (there is no try/except), discarding the
local `losses` list.  `σ` is the state a step threads (the live parameter
store and optimizer state). -/

def fitLoop {σ : Type} (step : σ → Except PyErr (ℚ × σ)) :
    ℕ → σ → Except PyErr (List ℚ × σ)
  | 0, s => Except.ok ([], s)
  | n + 1, s =>
      match step s with
      | Except.error e => Except.error e
      | Except.ok (l, s') =>
          match fitLoop step n s' with
          | Except.error e => Except.error e
          | Except.ok (ls, s'') => Except.ok (l :: ls, s'')

/-- The loss recorded at step `j` (0-based): run `j` steps, then one more,
and take its loss. -/

def lossAtStep {σ : Type} (step : σ → Except PyErr (ℚ × σ)) :
    ℕ → σ → Except PyErr ℚ
  | 0, s => (step s).map (fun p => p.1)
  | j + 1, s =>
      match step s with
      | Except.error e => Except.error e
      | Except.ok (_, s') => lossAtStep step j s'

/-- Body of `BPF._model` (lines 20-43).  Its first statement,
`if hyperparams is None:` (line 21), reads the name `hyperparams`, which
the assignment on line 22 makes local to the function body; Python
therefore raises UnboundLocalError at line 21 on every call, and the rest
of the body (the plates and the rating observation) is unreachable. -/

def BPF.modelBody (ratings : List Rating) : Except PyErr ℚ :=
  Except.error (PyErr.unboundLocal "hyperparams")

/-- Calling `BPF._model`.  The signature `_model(self, ratings)` (line 20)
takes exactly one positional argument besides `self`; `extra` counts the
positional arguments passed beyond `ratings`.  `fit` calls
`svi.step(ratings, hyperparams)` (line 98), which forwards both to the
model, so the call itself raises TypeError; with the correct single
argument the body raises UnboundLocalError (see `BPF.modelBody`). -/

def BPF.modelCall (ratings : List Rating) (extra : ℕ) : Except PyErr ℚ :=
  if extra = 0 then BPF.modelBody ratings
  else Except.error
    (PyErr.typeError "_model takes 2 positional arguments but 3 were given")

/-- A `pyro.sample(name, ...)` call under tracing: pyro requires sample
site names to be unique within one trace (`Trace.add_node`), so sampling
an already-seen name raises RuntimeError; otherwise the name is recorded.
`sites` is the list of names sampled so far in this trace. -/

def pySample (sites : List String) (name : String) :
    Except PyErr (List String) :=
  if name ∈ sites then
    Except.error (PyErr.runtimeError ("Multiple sample sites named " ++ name))
  else Except.ok (name :: sites)

/-- The latent-dimension loop of `BPF._guide` (lines 59-65 and 77-83):
for `l` starting at the given index while fuel remains, create the two
variational parameters `b1_{u},{l}` (init `v1`) and `b2_{u},{l}` (init
`v2`), then sample the site named `site`.  The site name carries NO
index (the source samples the literal names inside the sequential
plate), so a second iteration raises pyro's duplicate-site RuntimeError;
parameters created before the failing sample call persist.  Returns the
store and seen-site list at exit plus the error, if any. -/

def bpfLatentsLoop (b1 b2 : String) (v1 v2 : ℚ) (site : String) (u : ℕ) :
    ℕ → ℕ → Store → List String → (Store × List String) × Option PyErr
  | _, 0, st, sites => ((st, sites), none)
  | l, fuel + 1, st, sites =>
      let st1 := paramAdd st ⟨b1, [u, l]⟩ (PVal.scalar v1)
      let st2 := paramAdd st1 ⟨b2, [u, l]⟩ (PVal.scalar v2)
      match pySample sites site with
      | Except.error e => ((st2, sites), some e)
      | Except.ok sites2 =>
          bpfLatentsLoop b1 b2 v1 v2 site u (l + 1) fuel st2 sites2

/-- The per-entity loop of `BPF._guide` (lines 49-65 for users, 67-83
for items): for each entity create `ba_{u}` (init `va`) and `bb_{u}`
(init `vb`), sample the unindexed mean site, then run the latent loop.
Because the mean site name carries no index, the second entity's sample
raises the duplicate-site RuntimeError. -/

def bpfEntityLoop (ba bb : String) (va vb : ℚ) (meanSite : String)
    (b1 b2 : String) (v1 v2 : ℚ) (latSite : String) (K : ℕ) :
    ℕ → ℕ → Store → List String → (Store × List String) × Option PyErr
  | _, 0, st, sites => ((st, sites), none)
  | u, fuel + 1, st, sites =>
      let st1 := paramAdd st ⟨ba, [u]⟩ (PVal.scalar va)
      let st2 := paramAdd st1 ⟨bb, [u]⟩ (PVal.scalar vb)
      match pySample sites meanSite with
      | Except.error e => ((st2, sites), some e)
      | Except.ok sites2 =>
          match bpfLatentsLoop b1 b2 v1 v2 latSite u 0 K st2 sites2 with
          | (ss, some e) => (ss, some e)
          | ((st3, sites3), none) =>
              bpfEntityLoop ba bb va vb meanSite b1 b2 v1 v2 latSite K
                (u + 1) fuel st3 sites3

/-- First invocation of the body of `BPF._guide` (lines 49-83) under
tracing, from the empty store and empty trace: the user block, then —
only if it completed — the item block.  The sample sites at lines 56,
65, 74 and 83 are the unindexed names `user_mean`, `user_latents`,
`item_mean`, `item_latents`, so the trace aborts at the first repeated
site whenever `num_users`, `num_items`, or a per-entity latent count
exceeds 1, and only a prefix of the parameters is created. -/

def BPF.guideRun (hp : Hyper) : (Store × List String) × Option PyErr :=
  match bpfEntityLoop "q_au_" "q_bu_" hp.a_u hp.b_u "user_mean"
      "q_lu1_" "q_lu2_" hp.c_u 1 "user_latents" hp.num_latents
      0 hp.num_users [] [] with
  | (ss, some e) => (ss, some e)
  | ((st, sites), none) =>
      bpfEntityLoop "q_ai_" "q_bi_" hp.a_i hp.b_i "item_mean"
        "q_li1_" "q_li2_" hp.c_i 1 "item_latents" hp.num_latents
        0 hp.num_items st sites

/-- Running `BPF._guide(ratings, hyperparams)` (lines 45-47): if the
`hyperparams` argument is None it falls back to `self.hyperparams`; if
that is also None, the first subscript `hyperparams['num_users']` raises
TypeError.  Otherwise the guide's traced body runs (see `BPF.guideRun`),
and its duplicate-site error, if any, propagates. -/

def BPF.guideRunE (selfHp arg : Option Hyper) : Except PyErr Store :=
  match arg with
  | some hp =>
      match (BPF.guideRun hp).2 with
      | some e => Except.error e
      | none => Except.ok (BPF.guideRun hp).1.1
  | none =>
      match selfHp with
      | some hp =>
          match (BPF.guideRun hp).2 with
          | some e => Except.error e
          | none => Except.ok (BPF.guideRun hp).1.1
      | none =>
          Except.error (PyErr.typeError "NoneType object is not subscriptable")

/-- The argument handling at the top of `BPF.fit` (lines 85-92).  Returns
the pair (value of `self.hyperparams` after the block, value of the local
`hyperparams` used by the training loop).  Note the two inverted branches
of the source: when the argument is None and a stored value exists, line
90 executes `self.hyperparams = hyperparams`, overwriting the stored
value with None; when the argument is not None, line 92 executes
`hyperparams = self.hyperparams`, discarding the argument. -/

def BPF.fitResolve (selfHp arg : Option Hyper) :
    Except PyErr (Option Hyper × Option Hyper) :=
  match arg with
  | none =>
      match selfHp with
      | none => Except.error (PyErr.valueError "Hyperparameters not provided!")
      | some _ => Except.ok (none, none)
  | some _ => Except.ok (selfHp, selfHp)

/-- One `svi.step(ratings, hyperparams)` of `BPF.fit` (line 98) under
`TraceEnum_ELBO`: the guide is traced first — and for repeated unindexed
sample sites aborts with the duplicate-site RuntimeError (see
`BPF.guideRun`); only if the guide completes is the model called, with
the same two positional arguments, which raises TypeError (see
`BPF.modelCall`). -/

def BPF.stepRun (selfHp localHp : Option Hyper) (ratings : List Rating) :
    Except PyErr ℚ :=
  match BPF.guideRunE selfHp localHp with
  | Except.error e => Except.error e
  | Except.ok _ => BPF.modelCall ratings 1

/-- `BPF.fit(ratings, hyperparams, num_steps)` (lines 85-101): resolve the
hyperparameter arguments, then run the training loop. -/

def BPF.fitRun (selfHp arg : Option Hyper) (ratings : List Rating)
    (numSteps : ℕ) : Except PyErr (List ℚ) :=
  match BPF.fitResolve selfHp arg with
  | Except.error e => Except.error e
  | Except.ok (selfAfter, localHp) =>
      (fitLoop (fun (_ : Unit) =>
        (BPF.stepRun selfAfter localHp ratings).map (fun l => (l, ())))
        numSteps ()).map (fun p => p.1)

/-- A torch tensor value as it occurs in the rating block of
`MMPF._model`: the per-site Gamma samples there are 0-dimensional
(scalar) tensors, and column slices would be 1-dimensional. -/

inductive TVal where
  | scalar (x : ℚ)
  | vec (xs : List ℚ)
deriving DecidableEq

/-- Python `t[:, j]`: indexing with two indices requires a tensor of at
least two dimensions; on the 0- and 1-dimensional values that occur in
the rating block it raises IndexError. -/

def tIndexCol (t : TVal) (j : ℕ) : Except PyErr TVal :=
  match t with
  | TVal.scalar _ =>
      Except.error (PyErr.indexError "too many indices for tensor of dimension 0")
  | TVal.vec _ =>
      Except.error (PyErr.indexError "too many indices for tensor of dimension 1")

/-- Python `a @ b` on the column slices: the dot product of two vectors of
equal length; other shapes fail. -/

def tDot (a b : TVal) : Except PyErr ℚ :=
  match a, b with
  | TVal.vec xs, TVal.vec ys =>
      if xs.length = ys.length then
        Except.ok ((List.zip xs ys).map (fun p => p.1 * p.2)).sum
      else Except.error (PyErr.shapeError "matmul size mismatch")
  | _, _ => Except.error (PyErr.typeError "matmul on 0-dimensional tensor")

/-- Value of a loop-local variable like `user_latents` when it is read at
line 146 of `MMPF._model`, after the nested per-entity loops (lines
129-139) have run: the variable holds the 0-dimensional sample of the
LAST iteration (entity `outer-1`, latent `inner-1`), not a matrix; if
either loop was empty the name was never assigned and reading it raises
UnboundLocalError.  `g` gives the sampled value of each scalar site. -/

def lastVar (base : String) (outer inner : ℕ) (g : PKey → ℚ)
    (pyname : String) : Except PyErr TVal :=
  if outer = 0 ∨ inner = 0 then Except.error (PyErr.unboundLocal pyname)
  else Except.ok (TVal.scalar (g ⟨base, [outer - 1, inner - 1]⟩))

/-- The Poisson-rate computation of `MMPF._model` (lines 146-147):
`lam = user_latents[:, user] @ item_latents[:, item] +
user_context_latents[:, z_u] @ item_context_latents[:, z_i]`, evaluated
left to right with the variables holding their last-iteration
0-dimensional values (see `lastVar`). -/

def MMPF.lamAt (hp : Hyper) (g : PKey → ℚ) (user item zu zi : ℕ) :
    Except PyErr ℚ := do
  let ul ← lastVar "user_latents_" hp.num_users hp.num_latents g
    "user_latents"
  let ulc ← tIndexCol ul user
  let il ← lastVar "item_latents_" hp.num_items hp.num_latents g
    "item_latents"
  let ilc ← tIndexCol il item
  let ucl ← lastVar "user_context_latents_" hp.num_contexts
    hp.num_context_latents g "user_context_latents"
  let uclc ← tIndexCol ucl zu
  let icl ← lastVar "item_context_latents_" hp.num_contexts
    hp.num_context_latents g "item_context_latents"
  let iclc ← tIndexCol icl zi
  let d1 ← tDot ulc ilc
  let d2 ← tDot uclc iclc
  return d1 + d2

/-- The dot-product rate the specification prescribes for a rating
(u, i) with context assignments (z_u, z_i).  Modelled from the spec:
`lam = dot(user_latents[u,:], item_latents[i,:]) +
dot(user_context_latents[z_u,:], item_context_latents[z_i,:])`, with
`uv u k` the user factor matrix and so on. -/

def lamSpec (K Kc : ℕ) (uv iv : ℕ → ℕ → ℚ) (ucv icv : ℕ → ℕ → ℚ)
    (u i zu zi : ℕ) : ℚ :=
  ((List.range K).map (fun k => uv u k * iv i k)).sum +
    ((List.range Kc).map (fun v => ucv zu v * icv zi v)).sum

/-- The per-rating loop of `MMPF._guide` (lines 211-219): for `j` in
`0..num_nonmissing-1` read the next triple `(u, i, r)` from the shared
iterator (StopIteration if exhausted), create the Categorical posterior
parameters `q_zu_{u},{i}` and `q_zi_{u},{i}` (init: a ones-vector of
length `num_contexts`), and sample the two context sites.  Returns the
store at exit (parameters created before an exception persist) and
either the consumed triples in order or the exception. -/

def MMPF.guideRatingLoop (C : ℕ) :
    ℕ → List Rating → Store → Store × Except PyErr (List Rating)
  | 0, _, st => (st, Except.ok [])
  | _ + 1, [], st => (st, Except.error PyErr.stopIteration)
  | n + 1, (u, i, r) :: rest, st =>
      let st1 := paramAdd st ⟨"q_zu_", [u, i]⟩
        (PVal.vec (List.replicate C 1))
      let st2 := paramAdd st1 ⟨"q_zi_", [u, i]⟩
        (PVal.vec (List.replicate C 1))
      let p := MMPF.guideRatingLoop C n rest st2
      (p.1, p.2.map (fun l => (u, i, r) :: l))

/-- Initial value of the guide's context-concentration parameters
`q_user_context_conc` and `q_item_context_conc` (MMPF._guide lines
151-154): `torch.ones(num_context_latents)`. -/

def MMPF.ctxConcInit (hp : Hyper) : List ℚ :=
  List.replicate hp.num_context_latents 1

/-- Concentration vector of the model's Dirichlet over the context
probabilities (MMPF._model line 114):
`context_conc * torch.ones(num_contexts)`. -/

def MMPF.modelCtxConc (hp : Hyper) : List ℚ :=
  List.replicate hp.num_contexts hp.context_conc

/-- First invocation of `MMPF._guide` (lines 150-219), in source order:
the two context-concentration parameters, the user and item
context-latent blocks (`q_aucv`/`q_bucv`, `q_aicv`/`q_bicv`, init
`a_c`/`b_c`), the per-user block (`q_au`/`q_bu`/`q_lu1`/`q_lu2`, init
`a_u`/`b_u`/`c_u`/1.0), the per-item block (`q_ai`/`q_bi`/`q_li1`/
`q_li2`, init `a_i`/`b_i`/`c_u`/1.0 — note line 204 passes
`self.hyperparams['c_u']`, not `c_i`), and finally the per-rating loop.
Returns the parameter store at exit together with the rating loop's
result.  `MMPF.guideStorePre` is the store after the context blocks
(lines 151-173), built from the empty store of the first invocation. -/

def MMPF.guideStorePre (hp : Hyper) : Store :=
  ctxLoop "q_aicv_" "q_bicv_" hp.a_c hp.b_c hp.num_context_latents
    hp.num_contexts
    (ctxLoop "q_aucv_" "q_bucv_" hp.a_c hp.b_c hp.num_context_latents
      hp.num_contexts
      (paramAdd
        (paramAdd [] ⟨"q_user_context_conc", []⟩
          (PVal.vec (MMPF.ctxConcInit hp)))
        ⟨"q_item_context_conc", []⟩ (PVal.vec (MMPF.ctxConcInit hp))))

/-- Store after the per-user block of `MMPF._guide` (lines 175-191). -/

def MMPF.guideStoreUsers (hp : Hyper) : Store :=
  entityLoop "q_au_" "q_bu_" hp.a_u hp.b_u "q_lu1_" "q_lu2_" hp.c_u 1
    hp.num_latents hp.num_users (MMPF.guideStorePre hp)

/-- Store after the per-item block of `MMPF._guide` (lines 193-209); note
line 204 initializes `q_li1_{i},{l}` from `self.hyperparams['c_u']`. -/

def MMPF.guideStoreItems (hp : Hyper) : Store :=
  entityLoop "q_ai_" "q_bi_" hp.a_i hp.b_i "q_li1_" "q_li2_" hp.c_u 1
    hp.num_latents hp.num_items (MMPF.guideStoreUsers hp)

def MMPF.guideRun (hp : Hyper) (ratings : List Rating) :
    Store × Except PyErr (List Rating) :=
  MMPF.guideRatingLoop hp.num_contexts hp.num_nonmissing ratings
    (MMPF.guideStoreItems hp)

/-- Execution of the rating loop of `MMPF._model` (lines 141-148)
including each iteration's body: read the next triple from the shared
iterator (StopIteration if exhausted), sample the two context sites
(values `gz j`), compute `lam` — which raises at line 146, see
`MMPF.lamAt` — then score the Poisson observation.  Returns the list of
triples actually read before the loop exited, together with the error
that aborted it, if any: an error in the body stops the loop after that
iteration's read. -/

def MMPF.modelRatingLoop (hp : Hyper) (g : PKey → ℚ) (gz : ℕ → ℕ × ℕ) :
    ℕ → ℕ → List Rating → List Rating × Option PyErr
  | _, 0, _ => ([], none)
  | _, _ + 1, [] => ([], some PyErr.stopIteration)
  | j, n + 1, (u, i, r) :: rest =>
      match MMPF.lamAt hp g u i (gz j).1 (gz j).2 with
      | Except.error e => ([(u, i, r)], some e)
      | Except.ok _ =>
          let p := MMPF.modelRatingLoop hp g gz (j + 1) n rest
          ((u, i, r) :: p.1, p.2)

/-- Replay of `MMPF._model` (lines 109-148) against a guide trace.  The
forward pass runs first: the context and per-entity sample loops (whose
replayed values raise nothing) and then the rating loop, which aborts at
the line-146 rate computation (see `MMPF.modelRatingLoop`).  Only when
the forward pass completes are log-densities evaluated; there the
guide's `user_context_prob` value — a vector of dimension
`num_context_latents` (from `Dirichlet(q_user_context_conc)`) — is
scored under the model's Dirichlet of dimension `num_contexts` (line
114), a shape error unless the two dimensions agree.  The returned
scalar abstracts the ELBO term; no claim depends on its value. -/

def MMPF.modelRun (hp : Hyper) (g : PKey → ℚ) (gz : ℕ → ℕ × ℕ)
    (ratings : List Rating) : Except PyErr ℚ :=
  match (MMPF.modelRatingLoop hp g gz 0 hp.num_nonmissing ratings).2 with
  | some e => Except.error e
  | none =>
      if hp.num_context_latents = hp.num_contexts then Except.ok 0
      else Except.error (PyErr.shapeError "Dirichlet log_prob size mismatch")

/-- One `svi.step(ratings)` of `MMPF.fit` (line 226) under
`TraceEnum_ELBO`: the guide is traced first; if it raises, the step
raises; otherwise the model is replayed. -/

def MMPF.stepRun (hp : Hyper) (g : PKey → ℚ) (gz : ℕ → ℕ × ℕ)
    (ratings : List Rating) : Except PyErr ℚ :=
  match (MMPF.guideRun hp ratings).2 with
  | Except.error e => Except.error e
  | Except.ok _ => MMPF.modelRun hp g gz ratings

/-- `MMPF.fit(ratings, num_steps)` (lines 221-229): the training loop
over `MMPF.stepRun`.  `g` and `gz` supply the continuous and discrete
sampled values of the step (the claims hold for every choice). -/

def MMPF.fitRun (hp : Hyper) (g : PKey → ℚ) (gz : ℕ → ℕ × ℕ)
    (ratings : List Rating) (numSteps : ℕ) : Except PyErr (List ℚ) :=
  (fitLoop (fun (_ : Unit) =>
    (MMPF.stepRun hp g gz ratings).map (fun l => (l, ())))
    numSteps ()).map (fun p => p.1)

/-- The hyperparameter set of the spec §8 scenario (num_users=2,
num_items=2, num_latents=1, num_contexts=1, num_nonmissing=2, all Gamma
shapes/rates 1), completed with num_context_latents=1 and the source's
context concentration. -/

def hpW : Hyper where
  a_u := 1
  b_u := 1
  a_i := 1
  b_i := 1
  a_c := 1
  b_c := 1
  c_u := 1
  c_i := 1
  context_conc := 5
  num_users := 2
  num_items := 2
  num_latents := 1
  num_contexts := 1
  num_context_latents := 1
  num_nonmissing := 2

/-- The ratings of the spec §8 scenario. -/

def ratingsW : List Rating := [(0, 0, 1), (1, 1, 2)]

/-- A hyperparameter set with `c_u` different from `c_i`, to separate the
two initializations. -/

def hpW2 : Hyper :=
  { hpW with c_u := 2, c_i := 3, num_users := 1, num_items := 1 }

/-- A sampled-value oracle for the continuous sites. -/

def gW : PKey → ℚ := fun _ => 1

/-- A sampled-value oracle for the per-rating discrete context pairs. -/

def gzW : ℕ → ℕ × ℕ := fun _ => (0, 0)

/-- A step function that always succeeds, returning the step counter as
its loss, for exercising the training loop. -/

def stepSeq (s : ℕ) : Except PyErr (ℚ × ℕ) := Except.ok ((s : ℚ), s + 1)

/-- A step function that succeeds once (loss 5) and then fails with a
numerical error, for exercising the training loop's error path. -/

def stepNan (s : ℕ) : Except PyErr (ℚ × ℕ) :=
  if s = 0 then Except.ok (5, 1)
  else Except.error (PyErr.valueError "nan loss")

/-- Modelled from the spec: the numerically stable log-sum-exp the
discrete-enumeration estimator uses (the enumeration machinery of
`TraceEnum_ELBO` is pyro library code, not part of src/): subtract the
maximum, exponentiate, sum, take the log and add the maximum back;
empty input is mapped to 0. -/

noncomputable def logSumExp : List ℝ → ℝ
  | [] => 0
  | x :: rest =>
      (rest.foldl max x) +
        Real.log (((x :: rest).map
          (fun y => Real.exp (y - rest.foldl max x))).sum)

/-- Modelled from the spec: the log-space terms enumerated for one
rating — for every pair (c1, c2) of context values below `C`, the term
`log q(z_u = c1) + log q(z_i = c2) + loglik c1 c2`, where the weights are
the guide's two independent Categorical posteriors for that rating. -/

noncomputable def enumTerms (C : ℕ) (qu qi : ℕ → ℝ) (ll : ℕ → ℕ → ℝ) :
    List ℝ :=
  (List.range C).flatMap (fun c1 => (List.range C).map
    (fun c2 => Real.log (qu c1) + Real.log (qi c2) + ll c1 c2))

/-- Modelled from the spec: the estimator's per-rating discrete
contribution — the log-sum-exp over all C×C enumerated terms. -/

noncomputable def enumContrib (C : ℕ) (qu qi : ℕ → ℝ)
    (ll : ℕ → ℕ → ℝ) : ℝ :=
  logSumExp (enumTerms C qu qi ll)

/-- Modelled from the spec: the brute-force reference — explicitly
construct all C×C terms `q(z_u = c1) · q(z_i = c2) · lik c1 c2`
independently and sum them. -/

noncomputable def bruteForceSum (C : ℕ) (qu qi : ℕ → ℝ)
    (lik : ℕ → ℕ → ℝ) : ℝ :=
  ((List.range C).flatMap (fun c1 => (List.range C).map
    (fun c2 => qu c1 * qi c2 * lik c1 c2))).sum

/-- A ratings sequence of length 1, shorter than the scenario's
`num_nonmissing = 2`. -/

def ratingsShort : List Rating := [(0, 0, 1)]

/-- C3 witness: the theorem applied at C = 1 with uniform weights and a
zero log-likelihood. -/

theorem storeLookup_append (st st' : Store) (k : PKey) :
    storeLookup (st ++ st') k =
      match storeLookup st k with
      | some v => some v
      | none => storeLookup st' k := by
  induction st with
  | nil => rfl
  | cons p st ih =>
      obtain ⟨k', v⟩ := p
      by_cases h : k' = k <;> simp [storeLookup, h, ih]

theorem storeLookup_paramAdd_self (st : Store) (k : PKey) (v : PVal)
    (h : storeLookup st k = none) :
    storeLookup (paramAdd st k v) k = some v := by
  unfold paramAdd
  rw [h]
  rw [storeLookup_append, h]
  simp [storeLookup]

theorem storeLookup_paramAdd_mono (st : Store) (k k' : PKey) (v v' : PVal)
    (h : storeLookup st k = some v) :
    storeLookup (paramAdd st k' v') k = some v := by
  unfold paramAdd
  cases hk' : storeLookup st k' with
  | some w => exact h
  | none => rw [storeLookup_append, h]

theorem storeLookup_paramAdd_ne (st : Store) (k k' : PKey) (v' : PVal)
    (hne : k ≠ k') (h : storeLookup st k = none) :
    storeLookup (paramAdd st k' v') k = none := by
  unfold paramAdd
  cases hk' : storeLookup st k' with
  | some w => exact h
  | none =>
      rw [storeLookup_append, h]
      simp only [storeLookup]
      rw [if_neg (fun hc : k' = k => hne hc.symm)]

theorem PKey.ne_of_base {k : PKey} {b : String} {ids : List ℕ}
    (h : k.base ≠ b) : k ≠ ⟨b, ids⟩ := by
  intro hc
  exact h (by rw [hc])

theorem PKey.ne_of_ids {k : PKey} {b : String} {ids : List ℕ}
    (h : k.ids ≠ ids) : k ≠ ⟨b, ids⟩ := by
  intro hc
  exact h (by rw [hc])

theorem latentsLoop_some (b1 b2 : String) (v1 v2 : ℚ) (i : ℕ) (K : ℕ)
    (k : PKey) (w : PVal) :
    ∀ st : Store, storeLookup st k = some w →
      storeLookup (latentsLoop b1 b2 v1 v2 i K st) k = some w := by
  induction K with
  | zero => exact fun st h => h
  | succ K ih =>
      intro st h
      exact storeLookup_paramAdd_mono _ _ _ _ _
        (storeLookup_paramAdd_mono _ _ _ _ _ (ih st h))

theorem latentsLoop_none (b1 b2 : String) (v1 v2 : ℚ) (i : ℕ) (K : ℕ)
    (k : PKey) :
    ∀ st : Store,
      (∀ l, l < K → k ≠ ⟨b1, [i, l]⟩ ∧ k ≠ ⟨b2, [i, l]⟩) →
      storeLookup st k = none →
      storeLookup (latentsLoop b1 b2 v1 v2 i K st) k = none := by
  induction K with
  | zero => exact fun st _ h0 => h0
  | succ K ih =>
      intro st h h0
      have hK := h K (Nat.lt_succ_self K)
      exact storeLookup_paramAdd_ne _ _ _ _ hK.2
        (storeLookup_paramAdd_ne _ _ _ _ hK.1
          (ih st (fun l hl => h l (Nat.lt_succ_of_lt hl)) h0))

theorem latentsLoop_creates (b1 b2 : String) (v1 v2 : ℚ) (i : ℕ) (K : ℕ)
    (l : ℕ) (hb : b1 ≠ b2) :
    ∀ st : Store, l < K →
      storeLookup st ⟨b1, [i, l]⟩ = none →
      storeLookup st ⟨b2, [i, l]⟩ = none →
      storeLookup (latentsLoop b1 b2 v1 v2 i K st) ⟨b1, [i, l]⟩
          = some (PVal.scalar v1) ∧
      storeLookup (latentsLoop b1 b2 v1 v2 i K st) ⟨b2, [i, l]⟩
          = some (PVal.scalar v2) := by
  induction K with
  | zero => exact fun st hl _ _ => absurd hl (Nat.not_lt_zero l)
  | succ K ih =>
      intro st hl h1 h2
      rcases Nat.lt_succ_iff_lt_or_eq.mp hl with hlt | heq
      · obtain ⟨c1, c2⟩ := ih st hlt h1 h2
        exact ⟨storeLookup_paramAdd_mono _ _ _ _ _
                 (storeLookup_paramAdd_mono _ _ _ _ _ c1),
               storeLookup_paramAdd_mono _ _ _ _ _
                 (storeLookup_paramAdd_mono _ _ _ _ _ c2)⟩
      · subst heq
        have hfresh1 : ∀ l', l' < l →
            (⟨b1, [i, l]⟩ : PKey) ≠ ⟨b1, [i, l']⟩ ∧
            (⟨b1, [i, l]⟩ : PKey) ≠ ⟨b2, [i, l']⟩ := by
          intro l' hl'
          refine ⟨PKey.ne_of_ids ?_, PKey.ne_of_base hb⟩
          simp [Nat.ne_of_gt hl']
        have hfresh2 : ∀ l', l' < l →
            (⟨b2, [i, l]⟩ : PKey) ≠ ⟨b1, [i, l']⟩ ∧
            (⟨b2, [i, l]⟩ : PKey) ≠ ⟨b2, [i, l']⟩ := by
          intro l' hl'
          refine ⟨PKey.ne_of_base (Ne.symm hb), PKey.ne_of_ids ?_⟩
          simp [Nat.ne_of_gt hl']
        have n1 := latentsLoop_none b1 b2 v1 v2 i l _ st hfresh1 h1
        have n2 := latentsLoop_none b1 b2 v1 v2 i l _ st hfresh2 h2
        refine ⟨?_, ?_⟩
        · exact storeLookup_paramAdd_mono _ _ _ _ _
            (storeLookup_paramAdd_self _ _ _ n1)
        · refine storeLookup_paramAdd_self _ _ _ ?_
          exact storeLookup_paramAdd_ne _ _ _ _
            (PKey.ne_of_base (Ne.symm hb)) n2

theorem entityLoop_some (ba bb : String) (va vb : ℚ) (b1 b2 : String)
    (v1 v2 : ℚ) (K n : ℕ) (k : PKey) (w : PVal) :
    ∀ st : Store, storeLookup st k = some w →
      storeLookup (entityLoop ba bb va vb b1 b2 v1 v2 K n st) k = some w := by
  induction n with
  | zero => exact fun st h => h
  | succ n ih =>
      intro st h
      exact latentsLoop_some _ _ _ _ _ _ _ _ _
        (storeLookup_paramAdd_mono _ _ _ _ _
          (storeLookup_paramAdd_mono _ _ _ _ _ (ih st h)))

theorem entityLoop_none (ba bb : String) (va vb : ℚ) (b1 b2 : String)
    (v1 v2 : ℚ) (K n : ℕ) (k : PKey) :
    ∀ st : Store,
      (∀ m, m < n → k ≠ ⟨ba, [m]⟩ ∧ k ≠ ⟨bb, [m]⟩ ∧
        ∀ l, l < K → k ≠ ⟨b1, [m, l]⟩ ∧ k ≠ ⟨b2, [m, l]⟩) →
      storeLookup st k = none →
      storeLookup (entityLoop ba bb va vb b1 b2 v1 v2 K n st) k = none := by
  induction n with
  | zero => exact fun st _ h0 => h0
  | succ n ih =>
      intro st h h0
      have hn := h n (Nat.lt_succ_self n)
      refine latentsLoop_none _ _ _ _ _ _ _ _ hn.2.2 ?_
      exact storeLookup_paramAdd_ne _ _ _ _ hn.2.1
        (storeLookup_paramAdd_ne _ _ _ _ hn.1
          (ih st (fun m hm => h m (Nat.lt_succ_of_lt hm)) h0))

theorem entityLoop_creates (ba bb : String) (va vb : ℚ) (b1 b2 : String)
    (v1 v2 : ℚ) (K n i l : ℕ) (hl : l < K) (hb : b1 ≠ b2) (hba1 : b1 ≠ ba)
    (hbb1 : b1 ≠ bb) (hba2 : b2 ≠ ba) (hbb2 : b2 ≠ bb) :
    ∀ st : Store, i < n →
      storeLookup st ⟨b1, [i, l]⟩ = none →
      storeLookup st ⟨b2, [i, l]⟩ = none →
      storeLookup (entityLoop ba bb va vb b1 b2 v1 v2 K n st) ⟨b1, [i, l]⟩
          = some (PVal.scalar v1) ∧
      storeLookup (entityLoop ba bb va vb b1 b2 v1 v2 K n st) ⟨b2, [i, l]⟩
          = some (PVal.scalar v2) := by
  induction n with
  | zero => exact fun st hi _ _ => absurd hi (Nat.not_lt_zero i)
  | succ n ih =>
      intro st hi h1 h2
      rcases Nat.lt_succ_iff_lt_or_eq.mp hi with hlt | heq
      · obtain ⟨c1, c2⟩ := ih st hlt h1 h2
        exact ⟨latentsLoop_some _ _ _ _ _ _ _ _ _
                 (storeLookup_paramAdd_mono _ _ _ _ _
                   (storeLookup_paramAdd_mono _ _ _ _ _ c1)),
               latentsLoop_some _ _ _ _ _ _ _ _ _
                 (storeLookup_paramAdd_mono _ _ _ _ _
                   (storeLookup_paramAdd_mono _ _ _ _ _ c2))⟩
      · subst heq
        have hfresh1 : ∀ m, m < i →
            (⟨b1, [i, l]⟩ : PKey) ≠ ⟨ba, [m]⟩ ∧
            (⟨b1, [i, l]⟩ : PKey) ≠ ⟨bb, [m]⟩ ∧
            ∀ l', l' < K → (⟨b1, [i, l]⟩ : PKey) ≠ ⟨b1, [m, l']⟩ ∧
              (⟨b1, [i, l]⟩ : PKey) ≠ ⟨b2, [m, l']⟩ := by
          intro m hm
          refine ⟨PKey.ne_of_base hba1, PKey.ne_of_base hbb1, ?_⟩
          intro l' hl'
          refine ⟨PKey.ne_of_ids ?_, PKey.ne_of_base hb⟩
          simp [Nat.ne_of_gt hm]
        have hfresh2 : ∀ m, m < i →
            (⟨b2, [i, l]⟩ : PKey) ≠ ⟨ba, [m]⟩ ∧
            (⟨b2, [i, l]⟩ : PKey) ≠ ⟨bb, [m]⟩ ∧
            ∀ l', l' < K → (⟨b2, [i, l]⟩ : PKey) ≠ ⟨b1, [m, l']⟩ ∧
              (⟨b2, [i, l]⟩ : PKey) ≠ ⟨b2, [m, l']⟩ := by
          intro m hm
          refine ⟨PKey.ne_of_base hba2, PKey.ne_of_base hbb2, ?_⟩
          intro l' hl'
          refine ⟨PKey.ne_of_base (Ne.symm hb), PKey.ne_of_ids ?_⟩
          simp [Nat.ne_of_gt hm]
        have n1 := entityLoop_none ba bb va vb b1 b2 v1 v2 K i _ st hfresh1 h1
        have n2 := entityLoop_none ba bb va vb b1 b2 v1 v2 K i _ st hfresh2 h2
        have n1' := storeLookup_paramAdd_ne _ _ (⟨bb, [i]⟩ : PKey)
          (PVal.scalar vb) (PKey.ne_of_base hbb1)
          (storeLookup_paramAdd_ne _ _ (⟨ba, [i]⟩ : PKey)
            (PVal.scalar va) (PKey.ne_of_base hba1) n1)
        have n2' := storeLookup_paramAdd_ne _ _ (⟨bb, [i]⟩ : PKey)
          (PVal.scalar vb) (PKey.ne_of_base hbb2)
          (storeLookup_paramAdd_ne _ _ (⟨ba, [i]⟩ : PKey)
            (PVal.scalar va) (PKey.ne_of_base hba2) n2)
        exact latentsLoop_creates b1 b2 v1 v2 i K l hb _ hl n1' n2'

theorem ctxLoop_some (b1 b2 : String) (v1 v2 : ℚ) (K n : ℕ) (k : PKey)
    (w : PVal) :
    ∀ st : Store, storeLookup st k = some w →
      storeLookup (ctxLoop b1 b2 v1 v2 K n st) k = some w := by
  induction n with
  | zero => exact fun st h => h
  | succ n ih =>
      exact fun st h => latentsLoop_some _ _ _ _ _ _ _ _ _ (ih st h)

theorem ctxLoop_none_base (b1 b2 : String) (v1 v2 : ℚ) (K n : ℕ) (k : PKey)
    (hb1 : k.base ≠ b1) (hb2 : k.base ≠ b2) :
    ∀ st : Store, storeLookup st k = none →
      storeLookup (ctxLoop b1 b2 v1 v2 K n st) k = none := by
  induction n with
  | zero => exact fun st h0 => h0
  | succ n ih =>
      intro st h0
      refine latentsLoop_none _ _ _ _ _ _ _ _ ?_ (ih st h0)
      exact fun l hl => ⟨PKey.ne_of_base hb1, PKey.ne_of_base hb2⟩

theorem entityLoop_none_base (ba bb : String) (va vb : ℚ) (b1 b2 : String)
    (v1 v2 : ℚ) (K n : ℕ) (st : Store) (k : PKey)
    (ha : k.base ≠ ba) (hbq : k.base ≠ bb) (h1 : k.base ≠ b1)
    (h2 : k.base ≠ b2) (h0 : storeLookup st k = none) :
    storeLookup (entityLoop ba bb va vb b1 b2 v1 v2 K n st) k = none := by
  refine entityLoop_none _ _ _ _ _ _ _ _ _ _ _ st ?_ h0
  intro m hm
  exact ⟨PKey.ne_of_base ha, PKey.ne_of_base hbq,
    fun l hl => ⟨PKey.ne_of_base h1, PKey.ne_of_base h2⟩⟩

theorem guideRatingLoop_some (C : ℕ) (k : PKey) (w : PVal) :
    ∀ (n : ℕ) (it : List Rating) (st : Store),
      storeLookup st k = some w →
      storeLookup (MMPF.guideRatingLoop C n it st).1 k = some w := by
  intro n
  induction n with
  | zero => intro it st h; exact h
  | succ n ih =>
      intro it st h
      match it with
      | [] => exact h
      | (u, i, r) :: rest =>
          exact ih rest _ (storeLookup_paramAdd_mono _ _ _ _ _
            (storeLookup_paramAdd_mono _ _ _ _ _ h))

theorem guideRatingLoop_short (C : ℕ) :
    ∀ (n : ℕ) (it : List Rating) (st : Store), it.length < n →
      (MMPF.guideRatingLoop C n it st).2 = Except.error PyErr.stopIteration := by
  intro n
  induction n with
  | zero => intro it st h; exact absurd h (Nat.not_lt_zero _)
  | succ n ih =>
      intro it st h
      match it with
      | [] => rfl
      | (u, i, r) :: rest =>
          have hr : rest.length < n := Nat.lt_of_succ_lt_succ h
          simp only [MMPF.guideRatingLoop]
          rw [ih rest _ hr]
          rfl

theorem guideRatingLoop_take (C : ℕ) :
    ∀ (n : ℕ) (it : List Rating) (st : Store), n ≤ it.length →
      (MMPF.guideRatingLoop C n it st).2 = Except.ok (it.take n) := by
  intro n
  induction n with
  | zero => intro it st _; rfl
  | succ n ih =>
      intro it st h
      match it with
      | [] => exact absurd h (by simp)
      | (u, i, r) :: rest =>
          have hr : n ≤ rest.length := Nat.le_of_succ_le_succ h
          simp only [MMPF.guideRatingLoop]
          rw [ih rest _ hr]
          rfl

theorem fitLoop_error_head {σ : Type} (step : σ → Except PyErr (ℚ × σ))
    (n : ℕ) (s : σ) (e : PyErr) (hn : 1 ≤ n) (h : step s = Except.error e) :
    fitLoop step n s = Except.error e := by
  match n, hn with
  | n + 1, _ =>
      simp only [fitLoop]
      rw [h]

theorem sum_map_exp_shift (m : ℝ) (l : List ℝ) :
    (l.map (fun y => Real.exp (y - m))).sum
      = Real.exp (-m) * (l.map Real.exp).sum := by
  induction l with
  | nil => simp
  | cons a l ih =>
      simp only [List.map_cons, List.sum_cons, ih]
      rw [Real.exp_sub, Real.exp_neg, div_eq_mul_inv]
      ring

theorem sum_map_exp_nonneg (l : List ℝ) : 0 ≤ (l.map Real.exp).sum := by
  induction l with
  | nil => simp
  | cons a l ih =>
      simp only [List.map_cons, List.sum_cons]
      have := Real.exp_pos a
      linarith

theorem sum_map_exp_pos (x : ℝ) (l : List ℝ) :
    0 < ((x :: l).map Real.exp).sum := by
  simp only [List.map_cons, List.sum_cons]
  have h1 := Real.exp_pos x
  have h2 := sum_map_exp_nonneg l
  linarith

theorem logSumExp_eq_log_sum (l : List ℝ) (h : l ≠ []) :
    logSumExp l = Real.log ((l.map Real.exp).sum) := by
  match l, h with
  | x :: rest, _ =>
      simp only [logSumExp]
      rw [sum_map_exp_shift]
      rw [Real.log_mul (ne_of_gt (Real.exp_pos _))
        (ne_of_gt (sum_map_exp_pos x rest))]
      rw [Real.log_exp]
      ring

theorem enumTerms_map_exp (C : ℕ) (qu qi : ℕ → ℝ) (ll : ℕ → ℕ → ℝ)
    (hqu : ∀ c, 0 < qu c) (hqi : ∀ c, 0 < qi c) :
    (enumTerms C qu qi ll).map Real.exp
      = (List.range C).flatMap (fun c1 => (List.range C).map
          (fun c2 => qu c1 * qi c2 * Real.exp (ll c1 c2))) := by
  unfold enumTerms
  rw [List.map_flatMap]
  refine List.flatMap_congr ?_
  intro c1 _
  rw [List.map_map]
  refine List.map_congr_left ?_
  intro c2 _
  simp only [Function.comp_apply]
  rw [Real.exp_add, Real.exp_add, Real.exp_log (hqu c1),
    Real.exp_log (hqi c2)]

theorem enumTerms_ne_nil (C : ℕ) (qu qi : ℕ → ℝ) (ll : ℕ → ℕ → ℝ)
    (hC : 0 < C) : enumTerms C qu qi ll ≠ [] := by
  unfold enumTerms
  refine List.ne_nil_of_mem
    (a := Real.log (qu 0) + Real.log (qi 0) + ll 0 0) ?_
  refine List.mem_flatMap.mpr ⟨0, List.mem_range.mpr hC, ?_⟩
  exact List.mem_map.mpr ⟨0, List.mem_range.mpr hC, rfl⟩

theorem exceptBind_error {α β : Type} (e : PyErr) (f : α → Except PyErr β) :
    (Except.error e : Except PyErr α) >>= f = Except.error e := rfl

theorem exceptBind_ok {α β : Type} (a : α) (f : α → Except PyErr β) :
    (Except.ok a : Except PyErr α) >>= f = f a := rfl

theorem exceptMap_error {α β : Type} (e : PyErr) (f : α → β) :
    (Except.error e : Except PyErr α).map f = Except.error e := rfl

theorem BPF.stepRun_error (selfHp localHp : Option Hyper)
    (ratings : List Rating) :
    ∃ e, BPF.stepRun selfHp localHp ratings = Except.error e := by
  cases hg : BPF.guideRunE selfHp localHp with
  | error e =>
      refine ⟨e, ?_⟩
      unfold BPF.stepRun
      rw [hg]
  | ok st =>
      refine ⟨PyErr.typeError
        "_model takes 2 positional arguments but 3 were given", ?_⟩
      unfold BPF.stepRun
      rw [hg]
      rfl

/-- C9: in `BPF.fit`, a non-None `hyperparams` argument is discarded (line
92 replaces it with the stored `self.hyperparams`, which the training loop
then uses — so `fitRun` does not depend on the argument's value), and a
None argument with a non-None stored value overwrites `self.hyperparams`
with None (line 90) before training begins. -/
theorem C9_theorem (selfHp : Option Hyper) (h h' : Hyper)
    (ratings : List Rating) (n : ℕ) :
    BPF.fitResolve selfHp (some h) = Except.ok (selfHp, selfHp) ∧
    BPF.fitRun selfHp (some h) ratings n = BPF.fitRun selfHp (some h') ratings n ∧
    BPF.fitResolve (some h') none = Except.ok (none, none) := by
  exact ⟨rfl, rfl, rfl⟩

/-- C5: every `BPF.fit` call with a positive step budget fails before
completing a training step: `fit` passes two positional arguments
`(ratings, hyperparams)` to `_model`, which accepts only `ratings`
(TypeError), and even a correctly arity-matched call raises
UnboundLocalError at line 21, where the body reads the local
`hyperparams` before its only assignment (line 22). -/
theorem C5_theorem (selfHp arg : Option Hyper) (ratings : List Rating)
    (n : ℕ) (hn : 1 ≤ n) :
    (∃ e, BPF.fitRun selfHp arg ratings n = Except.error e) ∧
    BPF.modelCall ratings 1 = Except.error (PyErr.typeError
      "_model takes 2 positional arguments but 3 were given") ∧
    BPF.modelBody ratings = Except.error (PyErr.unboundLocal "hyperparams") := by
  refine ⟨?_, rfl, rfl⟩
  match arg with
  | none =>
      match selfHp with
      | none => exact ⟨PyErr.valueError "Hyperparameters not provided!", rfl⟩
      | some sh =>
          obtain ⟨e, he⟩ := BPF.stepRun_error none none ratings
          refine ⟨e, ?_⟩
          show (fitLoop _ n ()).map _ = Except.error e
          rw [fitLoop_error_head _ n () e hn (by rw [he]; rfl)]
          rfl
  | some h =>
      obtain ⟨e, he⟩ := BPF.stepRun_error selfHp selfHp ratings
      refine ⟨e, ?_⟩
      show (fitLoop _ n ()).map _ = Except.error e
      rw [fitLoop_error_head _ n () e hn (by rw [he]; rfl)]
      rfl

/-- C5 witness: the theorem applied at the spec §8 scenario with one
step. -/
theorem C5_witness :
    ∃ e, BPF.fitRun (some hpW) (some hpW) ratingsW 1 = Except.error e :=
  (C5_theorem (some hpW) (some hpW) ratingsW 1 (le_refl 1)).1

/-- C1 counterexample: at the spec §8 scenario (`num_users = 2`),
`BPF.fit` with `num_steps = 1` raises instead of returning a loss
sequence of length 1: the first step's guide trace — run before the
model is ever called — aborts at the second unindexed `user_mean`
sample with pyro's duplicate-site RuntimeError. -/
theorem C1_counterexample :
    BPF.fitRun (some hpW) (some hpW) ratingsW 1 = Except.error
      (PyErr.runtimeError "Multiple sample sites named user_mean") := by
  rfl

/-- C1 (amended): the training loop shared by `BPF.fit` and `MMPF.fit`
appends exactly one loss per optimization step, so whenever it returns
normally the loss sequence has length exactly `num_steps` and its `j`-th
element is the loss recorded at the `j`-th step; as stated the claim
fails, because on this code `BPF.fit`'s first step always raises (see the
counterexample), so `fit` raises instead of returning a sequence. -/
theorem C1_amended {σ : Type} (step : σ → Except PyErr (ℚ × σ)) (n : ℕ)
    (s : σ) (ls : List ℚ) (s' : σ)
    (h : fitLoop step n s = Except.ok (ls, s')) :
    ls.length = n ∧ ∀ j, j < n → ls[j]? = (lossAtStep step j s).toOption := by
  induction n generalizing s ls s' with
  | zero =>
      simp only [fitLoop, Except.ok.injEq, Prod.mk.injEq] at h
      obtain ⟨h1, _⟩ := h
      subst h1
      exact ⟨rfl, fun j hj => absurd hj (Nat.not_lt_zero j)⟩
  | succ n ih =>
      simp only [fitLoop] at h
      cases hstep : step s with
      | error e => rw [hstep] at h; exact absurd h (by simp)
      | ok p =>
          obtain ⟨l, s1⟩ := p
          rw [hstep] at h
          dsimp only [] at h
          cases hrec : fitLoop step n s1 with
          | error e => rw [hrec] at h; exact absurd h (by simp)
          | ok q =>
              obtain ⟨ls1, s2⟩ := q
              rw [hrec] at h
              simp only [Except.ok.injEq, Prod.mk.injEq] at h
              obtain ⟨hls, hs2⟩ := h
              subst hls
              obtain ⟨hlen, hidx⟩ := ih s1 ls1 s2 hrec
              refine ⟨by simp [hlen], ?_⟩
              intro j hj
              cases j with
              | zero => simp [lossAtStep, hstep, Except.map, Except.toOption]
              | succ j =>
                  have hj' : j < n := Nat.lt_of_succ_lt_succ hj
                  simp only [List.getElem?_cons_succ, lossAtStep, hstep]
                  exact hidx j hj'

/-- C1 amended witness: the amended theorem applied to a two-step run of
an always-succeeding step function. -/
theorem C1_amended_witness :
    ([(0 : ℚ), 1].length = 2) ∧
    ([(0 : ℚ), 1][0]? = (lossAtStep stepSeq 0 0).toOption) := by
  have h : fitLoop stepSeq 2 0 = Except.ok ([0, 1], 2) := by rfl
  have hc := C1_amended stepSeq 2 0 [0, 1] 2 h
  exact ⟨hc.1, hc.2 0 (by decide)⟩

/-- C7 counterexample: the training loop propagates a mid-training error
bare.  With a step that completes once (loss 5) and then fails, the
three-step run returns only the error: the accumulated loss history (the
5) is not returned alongside it, and the error carries no step index or
site name.  The same shape occurs in the program itself: `MMPF.fit` at
the spec §8 scenario propagates the rating block's IndexError
unaugmented. -/
theorem C7_counterexample :
    fitLoop stepNan 1 0 = Except.ok ([5], 1) ∧
    fitLoop stepNan 3 0 = Except.error (PyErr.valueError "nan loss") ∧
    MMPF.fitRun hpW gW gzW ratingsW 2 = Except.error
      (PyErr.indexError "too many indices for tensor of dimension 0") := by
  exact ⟨rfl, rfl, rfl⟩

/-- C7 (amended): if the first `j` steps succeed and step `j` fails, the
training loop — and hence `fit` — aborts with that step's error
propagated unchanged (no step index or latent-site name is attached),
and the loss history accumulated over the completed steps is discarded,
not returned. -/
theorem C7_amended {σ : Type} (step : σ → Except PyErr (ℚ × σ)) (n j : ℕ)
    (s s' : σ) (ls : List ℚ) (e : PyErr) (hj : j < n)
    (hpre : fitLoop step j s = Except.ok (ls, s'))
    (hfail : step s' = Except.error e) :
    fitLoop step n s = Except.error e := by
  induction j generalizing n s ls with
  | zero =>
      simp only [fitLoop, Except.ok.injEq, Prod.mk.injEq] at hpre
      obtain ⟨_, hs⟩ := hpre
      subst hs
      exact fitLoop_error_head step n s e hj hfail
  | succ j ih =>
      simp only [fitLoop] at hpre
      cases hstep : step s with
      | error e' => rw [hstep] at hpre; exact absurd hpre (by simp)
      | ok p =>
          obtain ⟨l, s1⟩ := p
          rw [hstep] at hpre
          dsimp only [] at hpre
          cases hrec : fitLoop step j s1 with
          | error e' => rw [hrec] at hpre; exact absurd hpre (by simp)
          | ok q =>
              obtain ⟨ls1, s2⟩ := q
              rw [hrec] at hpre
              simp only [Except.ok.injEq, Prod.mk.injEq] at hpre
              obtain ⟨_, hs2⟩ := hpre
              subst hs2
              match n, hj with
              | m + 1, hj =>
                  have hjm : j < m := Nat.lt_of_succ_lt_succ hj
                  simp only [fitLoop, hstep]
                  rw [ih m s1 ls1 hjm hrec]

/-- C7 amended witness: the amended theorem applied to the
succeed-once-then-fail step function. -/
theorem C7_amended_witness :
    fitLoop stepNan 2 0 = Except.error (PyErr.valueError "nan loss") :=
  C7_amended stepNan 2 1 0 1 [5] (PyErr.valueError "nan loss")
    (by decide) (by rfl) (by rfl)

theorem lamAt_always_errors (hp : Hyper) (g : PKey → ℚ)
    (user item zu zi : ℕ) :
    ∃ e, MMPF.lamAt hp g user item zu zi = Except.error e := by
  by_cases h : hp.num_users = 0 ∨ hp.num_latents = 0
  · exact ⟨PyErr.unboundLocal "user_latents",
      by simp [MMPF.lamAt, lastVar, h, exceptBind_error]⟩
  · exact ⟨PyErr.indexError "too many indices for tensor of dimension 0",
      by simp [MMPF.lamAt, lastVar, h, tIndexCol,
        exceptBind_ok, exceptBind_error]⟩

/-- C2 (code bug): the Poisson-rate of `MMPF._model` is never the claimed
dot-product value: at line 146 `user_latents` holds the 0-dimensional
sample of the last loop iteration (or is unbound when a loop is empty),
so `user_latents[:, user]` raises on every input — in particular the rate
never equals `lamSpec`, the rate the specification prescribes; at the
spec §8 scenario the raised error is the IndexError shown. -/
theorem C2_theorem :
    (∀ (hp : Hyper) (g : PKey → ℚ) (user item zu zi : ℕ),
      ∃ e, MMPF.lamAt hp g user item zu zi = Except.error e) ∧
    (∀ (hp : Hyper) (g : PKey → ℚ) (user item zu zi K Kc : ℕ)
      (uv iv ucv icv : ℕ → ℕ → ℚ),
      MMPF.lamAt hp g user item zu zi ≠
        Except.ok (lamSpec K Kc uv iv ucv icv user item zu zi)) ∧
    MMPF.lamAt hpW gW 0 0 0 0 = Except.error
      (PyErr.indexError "too many indices for tensor of dimension 0") := by
  refine ⟨lamAt_always_errors, ?_, rfl⟩
  intro hp g user item zu zi K Kc uv iv ucv icv hok
  obtain ⟨e, he⟩ := lamAt_always_errors hp g user item zu zi
  rw [hok] at he
  exact absurd he (by simp)

/-- C4 counterexample: at the spec §8 scenario (`num_nonmissing = 2`)
neither BPF nor MMPF consumes `num_nonmissing` rating entries.
`BPF._model` raises UnboundLocalError at line 21, before its rating
block, consuming zero triples (and `BPF._guide` has no rating iteration
at all); `MMPF._model`'s rating loop aborts at its first iteration's
line-146 rate computation, having read exactly one triple of the two. -/
theorem C4_counterexample :
    BPF.modelBody ratingsW = Except.error (PyErr.unboundLocal "hyperparams") ∧
    (MMPF.modelRatingLoop hpW gW gzW 0 2 ratingsW).1 = [(0, 0, 1)] ∧
    (MMPF.modelRatingLoop hpW gW gzW 0 2 ratingsW).2 = some
      (PyErr.indexError "too many indices for tensor of dimension 0") ∧
    ([((0 : ℕ), (0 : ℕ), (1 : ℕ))] : List Rating).length ≠ hpW.num_nonmissing := by
  exact ⟨rfl, rfl, rfl, by decide⟩

/-- C4 (amended): MMPF's guide rating loop reads exactly the first
`num_nonmissing` triples of the sequence in order; MMPF's model rating
loop reads triples from its own iterator in that same order, but its
body's rate computation raises on the first iteration (see C2), so in
execution it reads exactly the first triple — the same triple the
guide's first iteration read — and aborts; BPF's model raises
UnboundLocalError before its rating block, consuming no triples, and
BPF's guide has no rating iteration at all. -/
theorem C4_amended (hp : Hyper) (g : PKey → ℚ) (gz : ℕ → ℕ × ℕ)
    (C j n : ℕ) (it : List Rating) (st : Store)
    (hn : 1 ≤ n) (hlen : n ≤ it.length) :
    (MMPF.guideRatingLoop C n it st).2 = Except.ok (it.take n) ∧
    (MMPF.modelRatingLoop hp g gz j n it).1 = it.take 1 ∧
    (∃ e, (MMPF.modelRatingLoop hp g gz j n it).2 = some e) ∧
    BPF.modelBody it = Except.error (PyErr.unboundLocal "hyperparams") := by
  have hit : ∃ a rest, it = a :: rest := by
    cases it with
    | nil => simp only [List.length_nil] at hlen; omega
    | cons a rest => exact ⟨a, rest, rfl⟩
  obtain ⟨⟨u, i, r⟩, rest, rfl⟩ := hit
  obtain ⟨m, rfl⟩ : ∃ m, n = m + 1 :=
    ⟨n - 1, (Nat.succ_pred_eq_of_pos hn).symm⟩
  obtain ⟨e, he⟩ := lamAt_always_errors hp g u i (gz j).1 (gz j).2
  refine ⟨guideRatingLoop_take C (m + 1) _ st hlen, ?_, ⟨e, ?_⟩, rfl⟩
  · simp [MMPF.modelRatingLoop, he]
  · simp [MMPF.modelRatingLoop, he]

/-- C4 amended witness: the amended theorem at the spec §8 scenario. -/
theorem C4_amended_witness :
    (MMPF.guideRatingLoop 1 2 ratingsW []).2 = Except.ok (ratingsW.take 2) ∧
    (MMPF.modelRatingLoop hpW gW gzW 0 2 ratingsW).1 = ratingsW.take 1 ∧
    (∃ e, (MMPF.modelRatingLoop hpW gW gzW 0 2 ratingsW).2 = some e) ∧
    BPF.modelBody ratingsW = Except.error (PyErr.unboundLocal "hyperparams") :=
  C4_amended hpW gW gzW 1 0 2 ratingsW [] (by decide) (by decide)

theorem guideStorePre_none (hp : Hyper) (b : String) (ids : List ℕ)
    (h1 : b ≠ "q_aucv_") (h2 : b ≠ "q_bucv_") (h3 : b ≠ "q_aicv_")
    (h4 : b ≠ "q_bicv_") (h5 : b ≠ "q_user_context_conc")
    (h6 : b ≠ "q_item_context_conc") :
    storeLookup (MMPF.guideStorePre hp) ⟨b, ids⟩ = none := by
  unfold MMPF.guideStorePre
  refine ctxLoop_none_base _ _ _ _ _ _ _ h3 h4 _ ?_
  refine ctxLoop_none_base _ _ _ _ _ _ _ h1 h2 _ ?_
  refine storeLookup_paramAdd_ne _ _ _ _ (PKey.ne_of_base h6) ?_
  exact storeLookup_paramAdd_ne _ _ _ _ (PKey.ne_of_base h5) rfl

theorem entityLoop_none_base_mk (ba bb : String) (va vb : ℚ)
    (b1 b2 : String) (v1 v2 : ℚ) (K n : ℕ) (st : Store) (b : String)
    (ids : List ℕ) (ha : b ≠ ba) (hbq : b ≠ bb) (h1 : b ≠ b1)
    (h2 : b ≠ b2) (h0 : storeLookup st ⟨b, ids⟩ = none) :
    storeLookup (entityLoop ba bb va vb b1 b2 v1 v2 K n st) ⟨b, ids⟩
      = none :=
  entityLoop_none_base ba bb va vb b1 b2 v1 v2 K n st ⟨b, ids⟩
    ha hbq h1 h2 h0

theorem guidePre_userconc (hp : Hyper) :
    storeLookup (MMPF.guideStorePre hp) ⟨"q_user_context_conc", []⟩
      = some (PVal.vec (MMPF.ctxConcInit hp)) := by
  unfold MMPF.guideStorePre
  refine ctxLoop_some _ _ _ _ _ _ _ _ _ ?_
  refine ctxLoop_some _ _ _ _ _ _ _ _ _ ?_
  refine storeLookup_paramAdd_mono _ _ _ _ _ ?_
  exact storeLookup_paramAdd_self _ _ _ rfl

theorem guidePre_itemconc (hp : Hyper) :
    storeLookup (MMPF.guideStorePre hp) ⟨"q_item_context_conc", []⟩
      = some (PVal.vec (MMPF.ctxConcInit hp)) := by
  unfold MMPF.guideStorePre
  refine ctxLoop_some _ _ _ _ _ _ _ _ _ ?_
  refine ctxLoop_some _ _ _ _ _ _ _ _ _ ?_
  refine storeLookup_paramAdd_self _ _ _ ?_
  refine storeLookup_paramAdd_ne _ _ _ _ ?_ rfl
  exact PKey.ne_of_base (by decide)

theorem guideUsers_mono (hp : Hyper) (k : PKey) (w : PVal)
    (h : storeLookup (MMPF.guideStorePre hp) k = some w) :
    storeLookup (MMPF.guideStoreUsers hp) k = some w := by
  unfold MMPF.guideStoreUsers
  exact entityLoop_some _ _ _ _ _ _ _ _ _ _ _ _ _ h

theorem guideItems_mono (hp : Hyper) (k : PKey) (w : PVal)
    (h : storeLookup (MMPF.guideStoreUsers hp) k = some w) :
    storeLookup (MMPF.guideStoreItems hp) k = some w := by
  unfold MMPF.guideStoreItems
  exact entityLoop_some _ _ _ _ _ _ _ _ _ _ _ _ _ h

theorem guideRun_mono (hp : Hyper) (ratings : List Rating) (k : PKey)
    (w : PVal) (h : storeLookup (MMPF.guideStoreItems hp) k = some w) :
    storeLookup (MMPF.guideRun hp ratings).1 k = some w := by
  unfold MMPF.guideRun
  exact guideRatingLoop_some _ _ _ _ _ _ h

theorem guideUsers_lu (hp : Hyper) (u l : ℕ) (hu : u < hp.num_users)
    (hl : l < hp.num_latents) :
    storeLookup (MMPF.guideStoreUsers hp) ⟨"q_lu1_", [u, l]⟩
      = some (PVal.scalar hp.c_u) ∧
    storeLookup (MMPF.guideStoreUsers hp) ⟨"q_lu2_", [u, l]⟩
      = some (PVal.scalar 1) := by
  unfold MMPF.guideStoreUsers
  refine entityLoop_creates "q_au_" "q_bu_" hp.a_u hp.b_u "q_lu1_" "q_lu2_"
    hp.c_u 1 hp.num_latents hp.num_users u l hl (by decide) (by decide)
    (by decide) (by decide) (by decide) (MMPF.guideStorePre hp) hu ?_ ?_
  · exact guideStorePre_none hp _ _ (by decide) (by decide) (by decide)
      (by decide) (by decide) (by decide)
  · exact guideStorePre_none hp _ _ (by decide) (by decide) (by decide)
      (by decide) (by decide) (by decide)

theorem guideItems_li (hp : Hyper) (i l : ℕ) (hi : i < hp.num_items)
    (hl : l < hp.num_latents) :
    storeLookup (MMPF.guideStoreItems hp) ⟨"q_li1_", [i, l]⟩
      = some (PVal.scalar hp.c_u) ∧
    storeLookup (MMPF.guideStoreItems hp) ⟨"q_li2_", [i, l]⟩
      = some (PVal.scalar 1) := by
  unfold MMPF.guideStoreItems
  refine entityLoop_creates "q_ai_" "q_bi_" hp.a_i hp.b_i "q_li1_" "q_li2_"
    hp.c_u 1 hp.num_latents hp.num_items i l hl (by decide) (by decide)
    (by decide) (by decide) (by decide) (MMPF.guideStoreUsers hp) hi ?_ ?_
  · unfold MMPF.guideStoreUsers
    refine entityLoop_none_base_mk _ _ _ _ _ _ _ _ _ _ _ _ _ (by decide)
      (by decide) (by decide) (by decide) ?_
    exact guideStorePre_none hp _ _ (by decide) (by decide) (by decide)
      (by decide) (by decide) (by decide)
  · unfold MMPF.guideStoreUsers
    refine entityLoop_none_base_mk _ _ _ _ _ _ _ _ _ _ _ _ _ (by decide)
      (by decide) (by decide) (by decide) ?_
    exact guideStorePre_none hp _ _ (by decide) (by decide) (by decide)
      (by decide) (by decide) (by decide)

theorem storeLookup_paramAdd_cases (st : Store) (k k' : PKey)
    (v' v : PVal) (h : storeLookup (paramAdd st k' v') k = some v) :
    storeLookup st k = some v ∨ (k = k' ∧ v = v') := by
  unfold paramAdd at h
  cases hk' : storeLookup st k' with
  | some w => rw [hk'] at h; exact Or.inl h
  | none =>
      rw [hk'] at h
      dsimp only [] at h
      rw [storeLookup_append] at h
      cases hst : storeLookup st k with
      | some w =>
          rw [hst] at h
          dsimp only [] at h
          exact Or.inl h
      | none =>
          rw [hst] at h
          dsimp only [] at h
          simp only [storeLookup] at h
          by_cases hkk : k' = k
          · rw [if_pos hkk] at h
            exact Or.inr ⟨hkk.symm, (Option.some.inj h).symm⟩
          · rw [if_neg hkk] at h
            exact absurd h (by simp)

theorem baseInv_nil (b : String) (val : PVal) : baseInv [] b val := by
  intro ids v h
  exact absurd h (by simp [storeLookup])

theorem baseInv_paramAdd (st : Store) (b : String) (val : PVal)
    (b' : String) (ids' : List ℕ) (v' : PVal)
    (hv : b = b' → v' = val) (hinv : baseInv st b val) :
    baseInv (paramAdd st ⟨b', ids'⟩ v') b val := by
  intro ids v h
  rcases storeLookup_paramAdd_cases st _ _ _ _ h with hc | ⟨heq, hveq⟩
  · exact hinv ids v hc
  · have hb : b = b' := congrArg PKey.base heq
    rw [hveq]
    exact hv hb

theorem storeLookup_none_or_val (st : Store) (b : String) (val : PVal)
    (ids : List ℕ) (hinv : baseInv st b val) :
    storeLookup st ⟨b, ids⟩ = none ∨
    storeLookup st ⟨b, ids⟩ = some val := by
  cases hx : storeLookup st ⟨b, ids⟩ with
  | none => exact Or.inl rfl
  | some v => exact Or.inr (by rw [hinv ids v hx])

theorem bpfLatentsLoop_inv (b1 b2 : String) (v1 v2 : ℚ) (site : String)
    (u : ℕ) (b : String) (val : PVal)
    (h1 : b = b1 → PVal.scalar v1 = val)
    (h2 : b = b2 → PVal.scalar v2 = val) :
    ∀ (fuel l : ℕ) (st : Store) (sites : List String), baseInv st b val →
      baseInv (bpfLatentsLoop b1 b2 v1 v2 site u l fuel st sites).1.1
        b val := by
  intro fuel
  induction fuel with
  | zero => exact fun l st sites h => h
  | succ fuel ih =>
      intro l st sites h
      have h2' : baseInv (paramAdd (paramAdd st ⟨b1, [u, l]⟩
          (PVal.scalar v1)) ⟨b2, [u, l]⟩ (PVal.scalar v2)) b val :=
        baseInv_paramAdd _ _ _ _ _ _ (fun hb => h2 hb)
          (baseInv_paramAdd _ _ _ _ _ _ (fun hb => h1 hb) h)
      simp only [bpfLatentsLoop]
      cases hs : pySample sites site with
      | error e => exact h2'
      | ok sites2 => exact ih (l + 1) _ sites2 h2'

theorem bpfEntityLoop_inv (ba bb : String) (va vb : ℚ) (meanSite : String)
    (b1 b2 : String) (v1 v2 : ℚ) (latSite : String) (K : ℕ)
    (b : String) (val : PVal)
    (hba : b = ba → PVal.scalar va = val)
    (hbb : b = bb → PVal.scalar vb = val)
    (h1 : b = b1 → PVal.scalar v1 = val)
    (h2 : b = b2 → PVal.scalar v2 = val) :
    ∀ (fuel u : ℕ) (st : Store) (sites : List String), baseInv st b val →
      baseInv (bpfEntityLoop ba bb va vb meanSite b1 b2 v1 v2 latSite K
        u fuel st sites).1.1 b val := by
  intro fuel
  induction fuel with
  | zero => exact fun u st sites h => h
  | succ fuel ih =>
      intro u st sites h
      have h2' : baseInv (paramAdd (paramAdd st ⟨ba, [u]⟩
          (PVal.scalar va)) ⟨bb, [u]⟩ (PVal.scalar vb)) b val :=
        baseInv_paramAdd _ _ _ _ _ _ hbb
          (baseInv_paramAdd _ _ _ _ _ _ hba h)
      simp only [bpfEntityLoop]
      cases hs : pySample sites meanSite with
      | error e => exact h2'
      | ok sites2 =>
          dsimp only []
          have hlat := bpfLatentsLoop_inv b1 b2 v1 v2 latSite u b val
            h1 h2 K 0 _ sites2 h2'
          rcases hll : bpfLatentsLoop b1 b2 v1 v2 latSite u 0 K
              (paramAdd (paramAdd st ⟨ba, [u]⟩ (PVal.scalar va))
                ⟨bb, [u]⟩ (PVal.scalar vb)) sites2
            with ⟨⟨st3, sites3⟩, err⟩
          rw [hll] at hlat
          cases err with
          | none => exact ih (u + 1) st3 sites3 hlat
          | some e => exact hlat

theorem bpfGuideRun_inv (hp : Hyper) (b : String) (val : PVal)
    (hau : b = "q_au_" → PVal.scalar hp.a_u = val)
    (hbu : b = "q_bu_" → PVal.scalar hp.b_u = val)
    (hlu1 : b = "q_lu1_" → PVal.scalar hp.c_u = val)
    (hlu2 : b = "q_lu2_" → PVal.scalar 1 = val)
    (hai : b = "q_ai_" → PVal.scalar hp.a_i = val)
    (hbi : b = "q_bi_" → PVal.scalar hp.b_i = val)
    (hli1 : b = "q_li1_" → PVal.scalar hp.c_i = val)
    (hli2 : b = "q_li2_" → PVal.scalar 1 = val) :
    baseInv (BPF.guideRun hp).1.1 b val := by
  have huser := bpfEntityLoop_inv "q_au_" "q_bu_" hp.a_u hp.b_u "user_mean"
    "q_lu1_" "q_lu2_" hp.c_u 1 "user_latents" hp.num_latents b val
    hau hbu hlu1 hlu2 hp.num_users 0 [] [] (baseInv_nil b val)
  unfold BPF.guideRun
  rcases hres : bpfEntityLoop "q_au_" "q_bu_" hp.a_u hp.b_u "user_mean"
      "q_lu1_" "q_lu2_" hp.c_u 1 "user_latents" hp.num_latents
      0 hp.num_users [] [] with ⟨⟨st1, sites1⟩, err⟩
  rw [hres] at huser
  cases err with
  | some e => exact huser
  | none =>
      exact bpfEntityLoop_inv "q_ai_" "q_bi_" hp.a_i hp.b_i "item_mean"
        "q_li1_" "q_li2_" hp.c_i 1 "item_latents" hp.num_latents b val
        hai hbi hli1 hli2 hp.num_items 0 st1 sites1 huser

/-- C6 counterexample: with the spec §8 scenario hyperparameters and a
ratings sequence of length 1 (`num_nonmissing = 2`), the first step's
guide fails with StopIteration — not a DataShapeError detected eagerly —
and at that point variational parameters have already been created
(e.g. `q_au_0`), refuting the claim that the error occurs before any
parameter is created. -/
theorem C6_counterexample :
    (MMPF.guideRun hpW ratingsShort).2 = Except.error PyErr.stopIteration ∧
    storeLookup (MMPF.guideRun hpW ratingsShort).1 ⟨"q_au_", [0]⟩
      = some (PVal.scalar 1) := by
  exact ⟨rfl, rfl⟩

/-- C6 (amended): a ratings sequence shorter than `num_nonmissing` makes
`MMPF.fit` fail on its first step with StopIteration raised from the
guide's rating loop — there is no eager pre-step length check and no
DataShapeError — and the variational parameters created earlier in the
same guide execution (here the context-concentration parameter) already
exist in the store when the error is raised. -/
theorem C6_amended (hp : Hyper) (g : PKey → ℚ) (gz : ℕ → ℕ × ℕ)
    (ratings : List Rating) (n : ℕ)
    (hshort : ratings.length < hp.num_nonmissing) (hn : 1 ≤ n) :
    MMPF.fitRun hp g gz ratings n = Except.error PyErr.stopIteration ∧
    (MMPF.guideRun hp ratings).2 = Except.error PyErr.stopIteration ∧
    storeLookup (MMPF.guideRun hp ratings).1 ⟨"q_user_context_conc", []⟩
      = some (PVal.vec (MMPF.ctxConcInit hp)) := by
  have hguide : (MMPF.guideRun hp ratings).2
      = Except.error PyErr.stopIteration := by
    unfold MMPF.guideRun
    exact guideRatingLoop_short hp.num_contexts hp.num_nonmissing ratings
      _ hshort
  have hstep : MMPF.stepRun hp g gz ratings
      = Except.error PyErr.stopIteration := by
    unfold MMPF.stepRun
    rw [hguide]
  refine ⟨?_, hguide, ?_⟩
  · unfold MMPF.fitRun
    rw [fitLoop_error_head _ n () _ hn (by simp only [hstep]; rfl)]
    rfl
  · exact guideRun_mono hp ratings _ _ (guideItems_mono hp _ _
      (guideUsers_mono hp _ _ (guidePre_userconc hp)))

/-- C6 amended witness: the amended theorem at the spec §8 scenario with
a length-1 ratings sequence and one step. -/
theorem C6_amended_witness :
    MMPF.fitRun hpW gW gzW ratingsShort 1
      = Except.error PyErr.stopIteration ∧
    (MMPF.guideRun hpW ratingsShort).2 = Except.error PyErr.stopIteration ∧
    storeLookup (MMPF.guideRun hpW ratingsShort).1
      ⟨"q_user_context_conc", []⟩
      = some (PVal.vec (MMPF.ctxConcInit hpW)) :=
  C6_amended hpW gW gzW ratingsShort 1 (by decide) (by decide)

/-- C8 counterexample: with `c_u = 2` and `c_i = 3`, the first invocation
of `MMPF._guide` initializes the item-latent posterior shape `q_li1_0,0`
to 2 — the USER prior shape constant `c_u` (line 204) — and not to the
item prior shape constant `c_i = 3` the claim states. -/
theorem C8_counterexample :
    storeLookup (MMPF.guideRun hpW2 []).1 ⟨"q_li1_", [0, 0]⟩
      = some (PVal.scalar 2) ∧
    storeLookup (MMPF.guideRun hpW2 []).1 ⟨"q_li1_", [0, 0]⟩
      ≠ some (PVal.scalar hpW2.c_i) ∧
    hpW2.c_i = 3 ∧ hpW2.c_u = 2 := by
  exact ⟨rfl, by decide, rfl, rfl⟩

/-- C8 (amended): on its first invocation MMPF's guide initializes the
user-latent shape `q_lu1` to `c_u` and the rate terms `q_lu2`/`q_li2` to
1.0, but initializes the item-latent shape `q_li1` to `c_u` — the USER
prior shape constant (line 204) — not to `c_i` as the claim states.
BPF's guide passes the claimed initial values at its param call sites
(`q_lu1` from `c_u`, `q_li1` from `c_i`, rates 1.0): every parameter of
those families it creates holds exactly that value — but because its
sample sites are unindexed, its first invocation aborts at a duplicate
site whenever `num_users`, `num_items` or `num_latents` exceeds 1, so
only a prefix of the parameters exists (each either absent or holding
the claimed initial value). -/
theorem C8_amended (hp : Hyper) (ratings : List Rating) (u i l : ℕ)
    (hu : u < hp.num_users) (hi : i < hp.num_items)
    (hl : l < hp.num_latents) :
    storeLookup (MMPF.guideRun hp ratings).1 ⟨"q_lu1_", [u, l]⟩
      = some (PVal.scalar hp.c_u) ∧
    storeLookup (MMPF.guideRun hp ratings).1 ⟨"q_lu2_", [u, l]⟩
      = some (PVal.scalar 1) ∧
    storeLookup (MMPF.guideRun hp ratings).1 ⟨"q_li1_", [i, l]⟩
      = some (PVal.scalar hp.c_u) ∧
    storeLookup (MMPF.guideRun hp ratings).1 ⟨"q_li2_", [i, l]⟩
      = some (PVal.scalar 1) ∧
    (storeLookup (BPF.guideRun hp).1.1 ⟨"q_lu1_", [u, l]⟩ = none ∨
     storeLookup (BPF.guideRun hp).1.1 ⟨"q_lu1_", [u, l]⟩
       = some (PVal.scalar hp.c_u)) ∧
    (storeLookup (BPF.guideRun hp).1.1 ⟨"q_lu2_", [u, l]⟩ = none ∨
     storeLookup (BPF.guideRun hp).1.1 ⟨"q_lu2_", [u, l]⟩
       = some (PVal.scalar 1)) ∧
    (storeLookup (BPF.guideRun hp).1.1 ⟨"q_li1_", [i, l]⟩ = none ∨
     storeLookup (BPF.guideRun hp).1.1 ⟨"q_li1_", [i, l]⟩
       = some (PVal.scalar hp.c_i)) ∧
    (storeLookup (BPF.guideRun hp).1.1 ⟨"q_li2_", [i, l]⟩ = none ∨
     storeLookup (BPF.guideRun hp).1.1 ⟨"q_li2_", [i, l]⟩
       = some (PVal.scalar 1)) := by
  obtain ⟨mu1, mu2⟩ := guideUsers_lu hp u l hu hl
  obtain ⟨mi1, mi2⟩ := guideItems_li hp i l hi hl
  have inv1 : baseInv (BPF.guideRun hp).1.1 "q_lu1_"
      (PVal.scalar hp.c_u) :=
    bpfGuideRun_inv hp _ _ (fun h => absurd h (by decide))
      (fun h => absurd h (by decide)) (fun _ => rfl)
      (fun h => absurd h (by decide)) (fun h => absurd h (by decide))
      (fun h => absurd h (by decide)) (fun h => absurd h (by decide))
      (fun h => absurd h (by decide))
  have inv2 : baseInv (BPF.guideRun hp).1.1 "q_lu2_" (PVal.scalar 1) :=
    bpfGuideRun_inv hp _ _ (fun h => absurd h (by decide))
      (fun h => absurd h (by decide)) (fun h => absurd h (by decide))
      (fun _ => rfl) (fun h => absurd h (by decide))
      (fun h => absurd h (by decide)) (fun h => absurd h (by decide))
      (fun h => absurd h (by decide))
  have inv3 : baseInv (BPF.guideRun hp).1.1 "q_li1_"
      (PVal.scalar hp.c_i) :=
    bpfGuideRun_inv hp _ _ (fun h => absurd h (by decide))
      (fun h => absurd h (by decide)) (fun h => absurd h (by decide))
      (fun h => absurd h (by decide)) (fun h => absurd h (by decide))
      (fun h => absurd h (by decide)) (fun _ => rfl)
      (fun h => absurd h (by decide))
  have inv4 : baseInv (BPF.guideRun hp).1.1 "q_li2_" (PVal.scalar 1) :=
    bpfGuideRun_inv hp _ _ (fun h => absurd h (by decide))
      (fun h => absurd h (by decide)) (fun h => absurd h (by decide))
      (fun h => absurd h (by decide)) (fun h => absurd h (by decide))
      (fun h => absurd h (by decide)) (fun h => absurd h (by decide))
      (fun _ => rfl)
  exact ⟨guideRun_mono hp ratings _ _ (guideItems_mono hp _ _ mu1),
    guideRun_mono hp ratings _ _ (guideItems_mono hp _ _ mu2),
    guideRun_mono hp ratings _ _ mi1,
    guideRun_mono hp ratings _ _ mi2,
    storeLookup_none_or_val _ _ _ [u, l] inv1,
    storeLookup_none_or_val _ _ _ [u, l] inv2,
    storeLookup_none_or_val _ _ _ [i, l] inv3,
    storeLookup_none_or_val _ _ _ [i, l] inv4⟩

/-- C8 amended witness: the amended theorem at the separating
hyperparameters (`c_u = 2`, `c_i = 3`). -/
theorem C8_amended_witness :
    storeLookup (MMPF.guideRun hpW2 []).1 ⟨"q_lu1_", [0, 0]⟩
      = some (PVal.scalar hpW2.c_u) ∧
    storeLookup (MMPF.guideRun hpW2 []).1 ⟨"q_lu2_", [0, 0]⟩
      = some (PVal.scalar 1) ∧
    storeLookup (MMPF.guideRun hpW2 []).1 ⟨"q_li1_", [0, 0]⟩
      = some (PVal.scalar hpW2.c_u) ∧
    storeLookup (MMPF.guideRun hpW2 []).1 ⟨"q_li2_", [0, 0]⟩
      = some (PVal.scalar 1) ∧
    (storeLookup (BPF.guideRun hpW2).1.1 ⟨"q_lu1_", [0, 0]⟩ = none ∨
     storeLookup (BPF.guideRun hpW2).1.1 ⟨"q_lu1_", [0, 0]⟩
       = some (PVal.scalar hpW2.c_u)) ∧
    (storeLookup (BPF.guideRun hpW2).1.1 ⟨"q_lu2_", [0, 0]⟩ = none ∨
     storeLookup (BPF.guideRun hpW2).1.1 ⟨"q_lu2_", [0, 0]⟩
       = some (PVal.scalar 1)) ∧
    (storeLookup (BPF.guideRun hpW2).1.1 ⟨"q_li1_", [0, 0]⟩ = none ∨
     storeLookup (BPF.guideRun hpW2).1.1 ⟨"q_li1_", [0, 0]⟩
       = some (PVal.scalar hpW2.c_i)) ∧
    (storeLookup (BPF.guideRun hpW2).1.1 ⟨"q_li2_", [0, 0]⟩ = none ∨
     storeLookup (BPF.guideRun hpW2).1.1 ⟨"q_li2_", [0, 0]⟩
       = some (PVal.scalar 1)) :=
  C8_amended hpW2 [] 0 0 0 (by decide) (by decide) (by decide)

/-- C10: the guide's context-concentration parameter vectors have length
`num_context_latents` (they are created as `torch.ones(num_context_latents)`
and stored as such on first invocation), whereas the model's Dirichlet
over the shared context-probability sites has dimension `num_contexts`;
the two dimensions agree exactly when `num_context_latents = num_contexts`. -/
theorem C10_theorem (hp : Hyper) (ratings : List Rating) :
    ((MMPF.ctxConcInit hp).length = (MMPF.modelCtxConc hp).length
      ↔ hp.num_context_latents = hp.num_contexts) ∧
    (MMPF.ctxConcInit hp).length = hp.num_context_latents ∧
    (MMPF.modelCtxConc hp).length = hp.num_contexts ∧
    storeLookup (MMPF.guideRun hp ratings).1 ⟨"q_user_context_conc", []⟩
      = some (PVal.vec (MMPF.ctxConcInit hp)) ∧
    storeLookup (MMPF.guideRun hp ratings).1 ⟨"q_item_context_conc", []⟩
      = some (PVal.vec (MMPF.ctxConcInit hp)) := by
  refine ⟨?_, ?_, ?_, ?_, ?_⟩
  · simp [MMPF.ctxConcInit, MMPF.modelCtxConc]
  · simp [MMPF.ctxConcInit]
  · simp [MMPF.modelCtxConc]
  · exact guideRun_mono hp ratings _ _ (guideItems_mono hp _ _
      (guideUsers_mono hp _ _ (guidePre_userconc hp)))
  · exact guideRun_mono hp ratings _ _ (guideItems_mono hp _ _
      (guideUsers_mono hp _ _ (guidePre_itemconc hp)))

/-- C3 (spec-modelled): for one rating, the estimator's discrete
contribution — the numerically stable log-sum-exp over all C×C
enumerated terms `log q(z_u=c1) + log q(z_i=c2) + loglik c1 c2`, with the
weights taken from the guide's two independent Categorical posteriors —
equals the log of the brute-force sum obtained by explicitly
constructing all C×C terms `q(z_u=c1) · q(z_i=c2) · lik c1 c2`
independently and summing them; no sampling of the discrete latents is
involved. -/
theorem C3_theorem (C : ℕ) (qu qi : ℕ → ℝ) (ll : ℕ → ℕ → ℝ)
    (hC : 0 < C) (hqu : ∀ c, 0 < qu c) (hqi : ∀ c, 0 < qi c) :
    enumContrib C qu qi ll
      = Real.log (bruteForceSum C qu qi
          (fun c1 c2 => Real.exp (ll c1 c2))) := by
  unfold enumContrib bruteForceSum
  rw [logSumExp_eq_log_sum _ (enumTerms_ne_nil C qu qi ll hC)]
  rw [enumTerms_map_exp C qu qi ll hqu hqi]

theorem C3_witness :
    0 < 1 ∧ enumContrib 1 (fun _ => (1 : ℝ)) (fun _ => (1 : ℝ))
      (fun _ _ => (0 : ℝ))
      = Real.log (bruteForceSum 1 (fun _ => (1 : ℝ)) (fun _ => (1 : ℝ))
          (fun c1 c2 => Real.exp ((fun _ _ => (0 : ℝ)) c1 c2))) :=
  ⟨Nat.one_pos, C3_theorem 1 (fun _ => (1 : ℝ)) (fun _ => (1 : ℝ))
    (fun _ _ => (0 : ℝ)) Nat.one_pos (fun _ => one_pos) (fun _ => one_pos)⟩
